import Mathlib

/-!
Verification of the model-manager readiness engine.

The development shallowly embeds the two Go entry points of the repository
(`load.go`, the readiness gate, and `probe.go`, the one-shot probe):

* `PullEvent`, `consumePullStream`, `pullModel` embed the retrieval stream
  consumer `pullModel` of `load.go`.  The decoded stream is modelled as the
  list of successfully decoded events followed by how the decoder terminates
  (`StreamEnd.eof` for clean end of input, `StreamEnd.decodeFail` for a
  malformed record).
* `missingModels`, `pullLoop`, `ensureAll` embed the orchestrator
  `ensureAll`: the backend is a function from a model name to the HTTP
  response its pull request would produce.
* `waitLoop` / `waitUntilReady` embed the deadline-bounded retry loop
  `waitUntilReady`: the environment of each loop iteration (the wall-clock
  time observed at its start, the outcome of the liveness probe, the
  inventory response and the pull backend) is supplied as a trace, and the
  loop additionally records the trace of actions it performs (probes and
  ensure cycles, the latter carrying the list of pull calls issued).
* `requireEnv`, `parseModels`, `mustParseDuration`, `probeMain` embed the
  one-shot probe binary `probe.go`; Go's `time.ParseDuration` is an external
  library and is abstracted as a parameter.
* `rawPullBody` embeds the request-body construction of `pullModel`
  (raw string concatenation), and `jsonPullBody` is the JSON encoding of
  the object with a single field `name` (RFC 8259 string escaping).
-/

namespace ModelManager

/-- Embeds the Go struct `pullEvent` of `load.go`: one decoded record of the
streamed `/api/pull` response body. -/
structure PullEvent where
  status : String
  error : String
  digest : String
  total : Int
  completed : Int
deriving DecidableEq

/-- How the stream decoder terminates after the listed events: clean end of
input (`io.EOF`) or a structural decode failure with its message. -/
inductive StreamEnd where
  | eof
  | decodeFail (msg : String)
deriving DecidableEq

/-- The possible outcomes of `pullModel`, one constructor per `return`
statement of the Go function. -/
inductive PullResult where
  | success
  | transportError (msg : String)
  | statusError (code : Nat) (bodySnippet : String)
  | streamError (msg : String)
  | decodeError (msg : String)
  | endedWithoutSuccess
deriving DecidableEq

/-- Embeds the decode loop of `pullModel` (load.go lines 126-145): decode one
event at a time; a non-empty `error` field fails immediately, a `status`
equal to `"success"` returns success immediately, otherwise the loop
continues until the stream ends. -/
def consumePullStream : List PullEvent → StreamEnd → PullResult
  | [], StreamEnd.eof => PullResult.endedWithoutSuccess
  | [], StreamEnd.decodeFail msg => PullResult.decodeError msg
  | ev :: rest, ending =>
      if ev.error ≠ "" then PullResult.streamError ev.error
      else if ev.status = "success" then PullResult.success
      else consumePullStream rest ending

/-- The response the backend gives to one `POST /api/pull` request: either a
transport-level failure of the call itself, or a response with a status
code, a bounded body snippet (read only on a non-2xx status), and the
decoded event stream. -/
inductive HttpPullResponse where
  | transportFail (msg : String)
  | response (statusCode : Nat) (bodySnippet : String)
      (events : List PullEvent) (ending : StreamEnd)

/-- Embeds `pullModel` of `load.go`: transport errors propagate, a non-2xx
status fails with the status and body snippet, otherwise the streamed
events are consumed by the decode loop. -/
def pullModel : HttpPullResponse → PullResult
  | HttpPullResponse.transportFail msg => PullResult.transportError msg
  | HttpPullResponse.response code snippet events ending =>
      if code / 100 ≠ 2 then PullResult.statusError code snippet
      else consumePullStream events ending

/-- Renders the error message of a failed `pullModel` call, following the
`fmt.Errorf` format strings of `load.go`. -/
def pullErrMsg (model : String) : PullResult → String
  | PullResult.success => ""
  | PullResult.transportError msg => msg
  | PullResult.statusError code snippet =>
      "pull " ++ model ++ " failed: status " ++ toString code ++ ": " ++ snippet
  | PullResult.streamError msg => "pull " ++ model ++ ": " ++ msg
  | PullResult.decodeError msg => "pull " ++ model ++ ": decode: " ++ msg
  | PullResult.endedWithoutSuccess => "pull " ++ model ++ ": stream ended without success"

/-- The outcome of one `ensureAll` cycle: success, an inventory
(`listModels`) failure, or the failure of one model's pull. -/
inductive EnsureResult where
  | ok
  | inventoryError (msg : String)
  | pullFailed (model : String) (r : PullResult)
deriving DecidableEq

/-- Embeds the diff of `ensureAll` (load.go lines 153-158): the required
entries absent from the installed set, in required order. -/
def missingModels (required installed : List String) : List String :=
  required.filter (fun need => !(installed.contains need))

/-- Embeds the pull loop of `ensureAll` (load.go lines 159-164): pull each
missing model in order; the first failure aborts the loop.  Returns the
list of models for which a pull call was issued, paired with the outcome. -/
def pullLoop (backend : String → HttpPullResponse) :
    List String → List String × EnsureResult
  | [] => ([], EnsureResult.ok)
  | m :: rest =>
      if pullModel (backend m) = PullResult.success then
        let next := pullLoop backend rest
        (m :: next.1, next.2)
      else ([m], EnsureResult.pullFailed m (pullModel (backend m)))

/-- Embeds `ensureAll` of `load.go`: query the inventory, compute the missing
models, pull them sequentially.  The first component is the list of pull
calls issued, in order. -/
def ensureAll (inventory : Except String (List String))
    (backend : String → HttpPullResponse) (required : List String) :
    List String × EnsureResult :=
  match inventory with
  | Except.error msg => ([], EnsureResult.inventoryError msg)
  | Except.ok installed => pullLoop backend (missingModels required installed)

/-- Renders the error recorded by `waitUntilReady` after a failed ensure
cycle (`fmt.Errorf("ensure models: %w", err)`). -/
def ensureErrMsg : EnsureResult → String
  | EnsureResult.ok => ""
  | EnsureResult.inventoryError msg => "ensure models: " ++ msg
  | EnsureResult.pullFailed model r => "ensure models: " ++ pullErrMsg model r

/-- The environment one iteration of `waitUntilReady` runs against: the
wall-clock time observed at its start, the outcome of `pingOllama`
(`none` = success), the `listModels` response, and the pull backend. -/
structure CycleEnv where
  timeNow : Nat
  pingErr : Option String
  inventory : Except String (List String)
  backend : String → HttpPullResponse

/-- An observable step of the retry loop: a liveness probe (with its
outcome), or an ensure cycle carrying the pull calls it issued. -/
inductive Action where
  | probe (ok : Bool)
  | ensureCycle (calls : List String) (ok : Bool)
deriving DecidableEq

/-- The terminal outcome of the retry loop. -/
inductive ReadyOutcome where
  | ready
  | timedOut (msg : String)
deriving DecidableEq

/-- The error returned on deadline exhaustion: the last recorded error, or
the generic message when no attempt ever recorded one (load.go 172-176). -/
def timeoutMsg : Option String → String
  | some msg => msg
  | none => "startup timeout"

/-- Embeds the loop of `waitUntilReady` (load.go lines 171-189) over a trace
of per-iteration environments.  Returns the trace of actions performed and
the outcome (`none` when the supplied environment trace runs out before the
loop terminates).  The deadline is a fixed parameter, threaded unchanged
through every iteration, exactly as the Go code computes it once before the
loop and never reassigns it. -/
def waitLoop (required : List String) (deadline : Nat) :
    Option String → List CycleEnv → List Action × Option ReadyOutcome
  | _, [] => ([], none)
  | last, env :: rest =>
      if deadline < env.timeNow then
        ([], some (ReadyOutcome.timedOut (timeoutMsg last)))
      else
        match env.pingErr with
        | some e =>
            let next := waitLoop required deadline
              (some ("ollama not responding: " ++ e)) rest
            (Action.probe false :: next.1, next.2)
        | none =>
            let r := ensureAll env.inventory env.backend required
            if r.2 = EnsureResult.ok then
              ([Action.probe true, Action.ensureCycle r.1 true],
                some ReadyOutcome.ready)
            else
              let next := waitLoop required deadline (some (ensureErrMsg r.2)) rest
              (Action.probe true :: Action.ensureCycle r.1 false :: next.1, next.2)

/-- Embeds `waitUntilReady` of `load.go`: the deadline is computed exactly
once, as the time at loop start plus the startup limit, and the loop starts
with no recorded error. -/
def waitUntilReady (required : List String) (now0 startupLimit : Nat)
    (envs : List CycleEnv) : List Action × Option ReadyOutcome :=
  waitLoop required (now0 + startupLimit) none envs

/-- Embeds Go's `strings.TrimSpace`: strip leading and trailing whitespace
characters. -/
def goTrim (s : String) : String :=
  String.mk (((s.data.dropWhile Char.isWhitespace).reverse.dropWhile
    Char.isWhitespace).reverse)

/-- Embeds `strings.ReplaceAll(raw, ",", " ")` of `probe.go`: a single-character
pattern and replacement, hence a character-wise map. -/
def goReplaceCommas (s : String) : String :=
  String.mk (s.data.map (fun c => if c = ',' then ' ' else c))

/-- Accumulator loop for `goFields`: the characters of the current field are
carried reversed in `acc`. -/
def goFieldsAux : List Char → List Char → List String
  | [], acc => if acc = [] then [] else [String.mk acc.reverse]
  | c :: cs, acc =>
      if c.isWhitespace then
        if acc = [] then goFieldsAux cs []
        else String.mk acc.reverse :: goFieldsAux cs []
      else goFieldsAux cs (c :: acc)

/-- Embeds Go's `strings.Fields`: the maximal runs of non-whitespace
characters of the string. -/
def goFields (s : String) : List String :=
  goFieldsAux s.data []

/-- Embeds `requireEnv` of `probe.go`: look up the variable, trim
whitespace, fail if the result is empty.  `env` models `os.Getenv`. -/
def requireEnv (env : String → String) (key : String) : Except String String :=
  let v := goTrim (env key)
  if v = "" then Except.error ("required env " ++ key ++ " not set")
  else Except.ok v

/-- Embeds `parseModels` of `probe.go`: trim, replace commas by spaces,
split into fields; fail when no field remains. -/
def parseModels (raw : String) : Except String (List String) :=
  let fs := goFields (goReplaceCommas (goTrim raw))
  if fs = [] then Except.error "REQUIRED_MODELS must not be empty"
  else Except.ok fs

/-- Embeds `mustParseDuration` of `probe.go`.  Go's `time.ParseDuration` is
standard-library code, abstracted as the parameter `parseDuration`
(returning the duration in nanoseconds, or `none` on a parse failure). -/
def mustParseDuration (parseDuration : String → Option Int) (val key : String) :
    Except String Int :=
  match parseDuration val with
  | none => Except.error (key ++ " invalid duration " ++ val)
  | some d => Except.ok d

/-- Embeds `main` of `probe.go` (one-shot probe mode): validate the
configuration, query the inventory once (`tags` is the outcome of that
single `listModels` call: a transport/decode/status error or the installed
names), and check each required model for membership, exiting non-zero at
the first failure.  Returns the process exit code and the lines written to
standard error; no retrieval operation exists in this program. -/
def probeMain (parseDuration : String → Option Int) (env : String → String)
    (tags : Except String (List String)) : Nat × List String :=
  match requireEnv env "OLLAMA_BASE_URL" with
  | Except.error e => (1, [e])
  | Except.ok _ =>
  match requireEnv env "REQUIRED_MODELS" with
  | Except.error e => (1, [e])
  | Except.ok rawModels =>
  match parseModels rawModels with
  | Except.error e => (1, [e])
  | Except.ok required =>
  match requireEnv env "REQUEST_TIMEOUT" with
  | Except.error e => (1, [e])
  | Except.ok reqTimeoutStr =>
  match mustParseDuration parseDuration reqTimeoutStr "REQUEST_TIMEOUT" with
  | Except.error e => (1, [e])
  | Except.ok _ =>
  match tags with
  | Except.error e => (1, [e])
  | Except.ok installed =>
  match required.find? (fun need => !(installed.contains need)) with
  | some need => (1, ["missing model: " ++ need])
  | none => (0, [])

/-- Embeds the request-body construction of `pullModel` (load.go line 114):
raw string concatenation with no escaping. -/
def rawPullBody (model : String) : String :=
  "\x7b\"name\":\"" ++ model ++ "\"\x7d"

/-- One hexadecimal digit (lowercase). -/
def hexDigit (n : Nat) : Char :=
  if n < 10 then Char.ofNat (48 + n) else Char.ofNat (87 + n)

/-- Four hexadecimal digits of a code point below 0x10000. -/
def hex4 (n : Nat) : List Char :=
  [hexDigit (n / 4096 % 16), hexDigit (n / 256 % 16),
   hexDigit (n / 16 % 16), hexDigit (n % 16)]

/-- RFC 8259 string escaping of one character: a double quote, a backslash
and every control character below U+0020 must be escaped; every other
character may stand for itself. -/
def jsonEscapeChar (c : Char) : List Char :=
  if c = '"' then ['\\', '"']
  else if c = '\\' then ['\\', '\\']
  else if c = '\n' then ['\\', 'n']
  else if c = '\r' then ['\\', 'r']
  else if c = '\t' then ['\\', 't']
  else if c.toNat < 32 then '\\' :: 'u' :: hex4 c.toNat
  else [c]

/-- RFC 8259 escaping of a character list. -/
def jsonEscapeChars : List Char → List Char
  | [] => []
  | c :: cs => jsonEscapeChar c ++ jsonEscapeChars cs

/-- The JSON encoding of a string value. -/
def jsonEncodeString (s : String) : String :=
  "\"" ++ String.mk (jsonEscapeChars s.data) ++ "\""

/-- The JSON encoding of the object with the single field `name` bound to
`model` — what a correct `pullModel` request body would be. -/
def jsonPullBody (model : String) : String :=
  "\x7b\"name\":" ++ jsonEncodeString model ++ "\x7d"

/-! ## Claims C1-C3: the retrieval stream consumer -/

lemma consumePullStream_success (pre post : List PullEvent) (ev : PullEvent)
    (ending : StreamEnd) (hpre : ∀ e ∈ pre, e.error = "")
    (he : ev.error = "") (hs : ev.status = "success") :
    consumePullStream (pre ++ ev :: post) ending = PullResult.success := by
  induction pre with
  | nil => simp [consumePullStream, he, hs]
  | cons e pre ih =>
      have herr : e.error = "" := hpre e (List.mem_cons_self e pre)
      by_cases hst : e.status = "success"
      · simp [consumePullStream, herr, hst]
      · simp only [List.cons_append, consumePullStream, herr, ne_eq,
          not_true_eq_false, if_false, hst, ite_false]
        exact ih (fun x hx => hpre x (List.mem_cons_of_mem e hx))

/-- C1 (counterexample): the claim as stated is false — a decoded event whose
status is `"success"` but whose own error field is non-empty (with no
earlier events at all, so every earlier event vacuously has an empty error
field) makes `pullModel` fail with that error rather than return success. -/
theorem pullModel_success_event_with_error_counterexample :
    (PullEvent.mk "success" "boom" "" 0 0).status = "success" ∧
    pullModel (HttpPullResponse.response 200 ""
      [PullEvent.mk "success" "boom" "" 0 0] StreamEnd.eof) ≠
      PullResult.success ∧
    pullModel (HttpPullResponse.response 200 ""
      [PullEvent.mk "success" "boom" "" 0 0] StreamEnd.eof) =
      PullResult.streamError "boom" := by
  refine ⟨rfl, ?_, rfl⟩
  decide

/-- C1 (amended): for every retrieval stream in which a decoded event has
status `"success"` and an empty error field, and every earlier event has an
empty error field, `pullModel` stops reading and returns success
immediately, regardless of any further records or how the stream would
have ended after that event. -/
theorem pullModel_success_event_stops (snippet : String)
    (pre post : List PullEvent) (ev : PullEvent) (ending : StreamEnd)
    (hpre : ∀ e ∈ pre, e.error = "")
    (he : ev.error = "") (hs : ev.status = "success") :
    pullModel (HttpPullResponse.response 200 snippet (pre ++ ev :: post) ending) =
      PullResult.success := by
  simp only [pullModel]
  rw [if_neg (by norm_num)]
  exact consumePullStream_success pre post ev ending hpre he hs

/-- C1 (witness): a concrete stream — one progress event, then the success
event, then a junk event followed by a decoder failure — returns success. -/
theorem pullModel_success_event_stops_witness :
    pullModel (HttpPullResponse.response 200 ""
      [PullEvent.mk "downloading" "" "" 10 1, PullEvent.mk "success" "" "" 0 0,
       PullEvent.mk "junk" "" "" 0 0] (StreamEnd.decodeFail "garbage")) =
      PullResult.success :=
  pullModel_success_event_stops "" [PullEvent.mk "downloading" "" "" 10 1]
    [PullEvent.mk "junk" "" "" 0 0] (PullEvent.mk "success" "" "" 0 0)
    (StreamEnd.decodeFail "garbage") (by decide) rfl rfl

/-- C2: a retrieval stream that reaches clean end-of-input without any event
having status `"success"` and without any event carrying a non-empty error
makes `pullModel` fail with "stream ended without success" — success is
never inferred from stream closure. -/
theorem pullModel_stream_end_without_success_fails (snippet : String)
    (events : List PullEvent)
    (h : ∀ e ∈ events, e.error = "" ∧ e.status ≠ "success") :
    pullModel (HttpPullResponse.response 200 snippet events StreamEnd.eof) =
      PullResult.endedWithoutSuccess := by
  simp only [pullModel]
  rw [if_neg (by norm_num)]
  induction events with
  | nil => rfl
  | cons e rest ih =>
      obtain ⟨herr, hst⟩ := h e (List.mem_cons_self e rest)
      simp [consumePullStream, herr, hst]
      exact ih (fun x hx => h x (List.mem_cons_of_mem e hx))

/-- C2 (witness): a concrete stream of two progress events ending cleanly
without a success marker fails with the ended-without-success error. -/
theorem pullModel_stream_end_without_success_fails_witness :
    pullModel (HttpPullResponse.response 200 ""
      [PullEvent.mk "downloading" "" "" 10 1, PullEvent.mk "verifying" "" "" 10 10]
      StreamEnd.eof) = PullResult.endedWithoutSuccess :=
  pullModel_stream_end_without_success_fails ""
    [PullEvent.mk "downloading" "" "" 10 1, PullEvent.mk "verifying" "" "" 10 10]
    (by decide)

/-- C3: a retrieval stream in which some decoded event carries a non-empty
error message — while every earlier event has an empty error and a
non-success status — makes `pullModel` fail immediately with that message,
independent of that event's own status field and of everything that
follows it in the stream. -/
theorem pullModel_error_event_fails_immediately (snippet : String)
    (pre post : List PullEvent) (ev : PullEvent) (ending : StreamEnd)
    (hpre : ∀ e ∈ pre, e.error = "" ∧ e.status ≠ "success")
    (he : ev.error ≠ "") :
    pullModel (HttpPullResponse.response 200 snippet (pre ++ ev :: post) ending) =
      PullResult.streamError ev.error := by
  simp only [pullModel]
  rw [if_neg (by norm_num)]
  induction pre with
  | nil => simp [consumePullStream, he]
  | cons e pre ih =>
      obtain ⟨herr, hst⟩ := hpre e (List.mem_cons_self e pre)
      simp [consumePullStream, herr, hst]
      exact ih (fun x hx => hpre x (List.mem_cons_of_mem e hx))

/-- C3 (witness): a concrete stream whose second event carries an error (and
whose own status is `"success"`, which does not rescue it), followed by a
trailing success event that is never read, fails with that error. -/
theorem pullModel_error_event_fails_immediately_witness :
    pullModel (HttpPullResponse.response 200 ""
      [PullEvent.mk "downloading" "" "" 10 1,
       PullEvent.mk "success" "disk full" "" 0 0,
       PullEvent.mk "success" "" "" 0 0] StreamEnd.eof) =
      PullResult.streamError "disk full" :=
  pullModel_error_event_fails_immediately ""
    [PullEvent.mk "downloading" "" "" 10 1] [PullEvent.mk "success" "" "" 0 0]
    (PullEvent.mk "success" "disk full" "" 0 0) StreamEnd.eof
    (by decide) (by decide)

/-! ## Claim C4: the ensure-all orchestrator -/

lemma pullLoop_all_success (backend : String → HttpPullResponse)
    (ms : List String) (h : ∀ m ∈ ms, pullModel (backend m) = PullResult.success) :
    pullLoop backend ms = (ms, EnsureResult.ok) := by
  induction ms with
  | nil => rfl
  | cons m rest ih =>
      have hm := h m (List.mem_cons_self m rest)
      simp [pullLoop, hm, ih (fun x hx => h x (List.mem_cons_of_mem m hx))]

lemma pullLoop_first_fail (backend : String → HttpPullResponse)
    (pre post : List String) (m : String)
    (hpre : ∀ p ∈ pre, pullModel (backend p) = PullResult.success)
    (hm : pullModel (backend m) ≠ PullResult.success) :
    pullLoop backend (pre ++ m :: post) =
      (pre ++ [m], EnsureResult.pullFailed m (pullModel (backend m))) := by
  induction pre with
  | nil => simp [pullLoop, hm]
  | cons p pre ih =>
      have hp := hpre p (List.mem_cons_self p pre)
      simp [pullLoop, hp, ih (fun x hx => hpre x (List.mem_cons_of_mem p hx))]

lemma pullLoop_ok_calls (backend : String → HttpPullResponse)
    (ms calls : List String)
    (h : pullLoop backend ms = (calls, EnsureResult.ok)) : calls = ms := by
  induction ms generalizing calls with
  | nil => simpa [pullLoop] using congrArg Prod.fst h.symm
  | cons m rest ih =>
      by_cases hm : pullModel (backend m) = PullResult.success
      · simp only [pullLoop, hm, if_pos] at h
        obtain ⟨h1, h2⟩ := Prod.mk.injEq .. ▸ h
        exact h1 ▸ congrArg (m :: ·) (ih _ (Prod.ext rfl h2))
      · simp [pullLoop, hm] at h

/-- C4: with a successfully queried installed set, `ensureAll` computes the
missing models as exactly the required entries not in the installed set,
in required order (a sublist of `required`); when every missing model's
pull succeeds it issues exactly one pull per missing model, in that order;
and when the pull of a model fails after a prefix of successful pulls, the
cycle aborts with that model's error and no pull is issued for any later
missing model. -/
theorem ensureAll_missing_order_and_abort (required installed : List String)
    (backend : String → HttpPullResponse) :
    (∀ m, m ∈ missingModels required installed ↔ m ∈ required ∧ m ∉ installed) ∧
    (missingModels required installed).Sublist required ∧
    ((∀ m ∈ missingModels required installed,
        pullModel (backend m) = PullResult.success) →
      ensureAll (Except.ok installed) backend required =
        (missingModels required installed, EnsureResult.ok)) ∧
    (∀ pre m post, missingModels required installed = pre ++ m :: post →
      (∀ p ∈ pre, pullModel (backend p) = PullResult.success) →
      pullModel (backend m) ≠ PullResult.success →
      ensureAll (Except.ok installed) backend required =
        (pre ++ [m], EnsureResult.pullFailed m (pullModel (backend m)))) := by
  refine ⟨?_, List.filter_sublist required, ?_, ?_⟩
  · intro m
    simp [missingModels, List.mem_filter, List.elem_iff]
  · intro h
    simpa [ensureAll] using pullLoop_all_success backend _ h
  · intro pre m post hsplit hpre hm
    simpa [ensureAll, hsplit] using pullLoop_first_fail backend pre post m hpre hm

/-- C4 (witness): required `["a","b","c"]` against installed `["a"]` gives
missing `["b","c"]`; with a backend whose pulls all succeed the cycle pulls
exactly `["b","c"]`, and with a backend failing on `"b"` the cycle aborts
after the single pull of `"b"`. -/
theorem ensureAll_missing_order_and_abort_witness :
    ("b" ∈ missingModels ["a", "b", "c"] ["a"] ↔
      "b" ∈ ["a", "b", "c"] ∧ "b" ∉ ["a"]) ∧
    ensureAll (Except.ok ["a"])
      (fun _ => HttpPullResponse.response 200 ""
        [PullEvent.mk "success" "" "" 0 0] StreamEnd.eof) ["a", "b", "c"] =
      (["b", "c"], EnsureResult.ok) ∧
    ensureAll (Except.ok ["a"])
      (fun _ => HttpPullResponse.response 200 ""
        [PullEvent.mk "" "no space" "" 0 0] StreamEnd.eof) ["a", "b", "c"] =
      (["b"], EnsureResult.pullFailed "b" (PullResult.streamError "no space")) :=
  ⟨(ensureAll_missing_order_and_abort ["a", "b", "c"] ["a"]
      (fun _ => HttpPullResponse.response 200 ""
        [PullEvent.mk "success" "" "" 0 0] StreamEnd.eof)).1 "b",
   (ensureAll_missing_order_and_abort ["a", "b", "c"] ["a"]
      (fun _ => HttpPullResponse.response 200 ""
        [PullEvent.mk "success" "" "" 0 0] StreamEnd.eof)).2.2.1 (by decide),
   (ensureAll_missing_order_and_abort ["a", "b", "c"] ["a"]
      (fun _ => HttpPullResponse.response 200 ""
        [PullEvent.mk "" "no space" "" 0 0] StreamEnd.eof)).2.2.2 [] "b" ["c"]
      (by decide) (by decide) (by decide)⟩

/-! ## Claims C5-C7: the deadline-bounded retry loop -/

/-- C5: `waitUntilReady` fixes the deadline once, as the time at loop start
plus the startup limit; every iteration first compares its observed time
against that same fixed point; when the deadline is exceeded the loop
returns the most recently recorded error, or the generic "startup timeout"
when no attempt ever recorded one; and both failure paths (probe failure,
ensure failure) recurse with the deadline unchanged — it is never extended
or reset. -/
theorem waitUntilReady_deadline_fixed (required : List String)
    (now0 startupLimit deadline : Nat) (last : Option String)
    (env : CycleEnv) (rest envs : List CycleEnv) :
    (waitUntilReady required now0 startupLimit envs =
      waitLoop required (now0 + startupLimit) none envs) ∧
    (deadline < env.timeNow →
      waitLoop required deadline last (env :: rest) =
        ([], some (ReadyOutcome.timedOut (timeoutMsg last)))) ∧
    (timeoutMsg none = "startup timeout") ∧
    (∀ msg, timeoutMsg (some msg) = msg) ∧
    (env.timeNow ≤ deadline → ∀ e, env.pingErr = some e →
      waitLoop required deadline last (env :: rest) =
        (Action.probe false ::
          (waitLoop required deadline
            (some ("ollama not responding: " ++ e)) rest).1,
         (waitLoop required deadline
            (some ("ollama not responding: " ++ e)) rest).2)) ∧
    (env.timeNow ≤ deadline → env.pingErr = none →
      (ensureAll env.inventory env.backend required).2 ≠ EnsureResult.ok →
      waitLoop required deadline last (env :: rest) =
        (Action.probe true ::
          Action.ensureCycle (ensureAll env.inventory env.backend required).1
            false ::
          (waitLoop required deadline
            (some (ensureErrMsg
              (ensureAll env.inventory env.backend required).2)) rest).1,
         (waitLoop required deadline
            (some (ensureErrMsg
              (ensureAll env.inventory env.backend required).2)) rest).2)) := by
  refine ⟨rfl, ?_, rfl, fun _ => rfl, ?_, ?_⟩
  · intro hlate
    simp [waitLoop, hlate]
  · intro hok e hping
    simp [waitLoop, Nat.not_lt.mpr hok, hping]
  · intro hok hping hfail
    simp [waitLoop, Nat.not_lt.mpr hok, hping, hfail]

/-- C5 (witness): with a deadline of 10, an iteration observing time 11
returns the recorded error; with no recorded error it returns the generic
timeout; and a probe failure at time 3 recurses into the remaining trace
with the same deadline. -/
theorem waitUntilReady_deadline_fixed_witness :
    (waitLoop ["m"] 10 (some "boom")
      [CycleEnv.mk 11 none (Except.ok []) (fun _ => HttpPullResponse.transportFail "")] =
      ([], some (ReadyOutcome.timedOut "boom"))) ∧
    (waitLoop ["m"] 10 none
      [CycleEnv.mk 11 none (Except.ok []) (fun _ => HttpPullResponse.transportFail "")] =
      ([], some (ReadyOutcome.timedOut "startup timeout"))) ∧
    (waitLoop ["m"] 10 none
      [CycleEnv.mk 3 (some "refused") (Except.ok [])
        (fun _ => HttpPullResponse.transportFail "")] =
      (Action.probe false ::
        (waitLoop ["m"] 10 (some ("ollama not responding: " ++ "refused")) []).1,
       (waitLoop ["m"] 10 (some ("ollama not responding: " ++ "refused")) []).2)) :=
  ⟨(waitUntilReady_deadline_fixed ["m"] 0 0 10 (some "boom")
      (CycleEnv.mk 11 none (Except.ok []) (fun _ => HttpPullResponse.transportFail ""))
      [] []).2.1 (by decide),
   (waitUntilReady_deadline_fixed ["m"] 0 0 10 none
      (CycleEnv.mk 11 none (Except.ok []) (fun _ => HttpPullResponse.transportFail ""))
      [] []).2.1 (by decide),
   (waitUntilReady_deadline_fixed ["m"] 0 0 10 none
      (CycleEnv.mk 3 (some "refused") (Except.ok [])
        (fun _ => HttpPullResponse.transportFail ""))
      [] []).2.2.2.2.1 (by decide) "refused" rfl⟩

/-- C6: evaluation of the retry loop on a trace whose first iteration's
probe fails with the backend's cancellation-classed error ("context
canceled", the error every in-flight call returns once the cancellation
signal fires).  The loop does not propagate the cancellation: it records
the error like any transient failure, performs a further probe and a full
ensure cycle on the next iteration, and even reaches `ready`.  The Go code
likewise pauses with `time.Sleep`, which does not observe the cancellation
signal, and `waitUntilReady` never consults the signal itself, so a fired
cancellation neither aborts the backoff pause nor stops further retry
attempts — contradicting the specified cancellation behaviour. -/
theorem waitLoop_retries_after_cancellation :
    waitLoop ["m"] 100 none
      [CycleEnv.mk 5 (some "context canceled") (Except.ok [])
        (fun _ => HttpPullResponse.transportFail ""),
       CycleEnv.mk 7 none (Except.ok ["m"])
        (fun _ => HttpPullResponse.transportFail "")] =
      ([Action.probe false, Action.probe true, Action.ensureCycle [] true],
        some ReadyOutcome.ready) := rfl

/-- The adjacency discipline of the retry loop's action trace: an ensure
cycle only ever follows a successful probe, and whatever follows a failed
ensure cycle is a probe. -/
def probeGuard (x y : Action) : Prop :=
  ((∃ calls ok, y = Action.ensureCycle calls ok) → x = Action.probe true) ∧
  (∀ calls, x = Action.ensureCycle calls false → ∃ b, y = Action.probe b)

lemma action_not_ensure_is_probe (a : Action)
    (h : ∀ calls ok, a ≠ Action.ensureCycle calls ok) : ∃ b, a = Action.probe b := by
  cases a with
  | probe b => exact ⟨b, rfl⟩
  | ensureCycle calls ok => exact absurd rfl (h calls ok)

lemma probeGuard_probe_probe (b c : Bool) :
    probeGuard (Action.probe b) (Action.probe c) := by
  unfold probeGuard
  constructor
  · rintro ⟨calls, ok, h⟩
    cases h
  · intro calls h
    cases h

lemma probeGuard_probeTrue_ensure (calls : List String) (ok : Bool) :
    probeGuard (Action.probe true) (Action.ensureCycle calls ok) := by
  unfold probeGuard
  constructor
  · intro _
    rfl
  · intro c h
    cases h

lemma probeGuard_ensure_probe (calls : List String) (ok b : Bool) :
    probeGuard (Action.ensureCycle calls ok) (Action.probe b) := by
  unfold probeGuard
  constructor
  · rintro ⟨c, o, h⟩
    cases h
  · intro c h
    exact ⟨b, rfl⟩

/-- C7: in every action trace of the retry loop, the first action is never
an ensure cycle (a probe always comes first), every ensure cycle is
immediately preceded by a successful probe, and the action following a
failed ensure cycle is always a fresh probe — the loop never re-enters
ensuring directly, and no ensure cycle runs in an iteration whose probe
did not succeed. -/
theorem waitLoop_ensure_only_after_probe (required : List String)
    (deadline : Nat) (last : Option String) (envs : List CycleEnv) :
    (∀ calls ok, (waitLoop required deadline last envs).1.head? ≠
      some (Action.ensureCycle calls ok)) ∧
    List.Chain' probeGuard (waitLoop required deadline last envs).1 := by
  induction envs generalizing last with
  | nil => simp [waitLoop]
  | cons env rest ih =>
      by_cases hlate : deadline < env.timeNow
      · simp [waitLoop, hlate]
      · cases hping : env.pingErr with
        | some e =>
            have hrec := ih (some ("ollama not responding: " ++ e))
            simp only [waitLoop, if_neg hlate, hping]
            refine ⟨by simp, ?_⟩
            rw [List.chain'_cons']
            refine ⟨?_, hrec.2⟩
            intro y hy
            obtain ⟨b, rfl⟩ := action_not_ensure_is_probe y
              (fun calls ok hne => hrec.1 calls ok (hne ▸ Option.mem_def.mp hy))
            exact probeGuard_probe_probe false b
        | none =>
            by_cases hok : (ensureAll env.inventory env.backend required).2 = EnsureResult.ok
            · simp only [waitLoop, if_neg hlate, hping]
              rw [if_pos hok]
              refine ⟨by simp, ?_⟩
              rw [List.chain'_cons]
              exact ⟨probeGuard_probeTrue_ensure _ true, List.chain'_singleton _⟩
            · have hrec := ih (some (ensureErrMsg (ensureAll env.inventory env.backend required).2))
              simp only [waitLoop, if_neg hlate, hping]
              rw [if_neg hok]
              refine ⟨by simp, ?_⟩
              rw [List.chain'_cons, List.chain'_cons']
              refine ⟨probeGuard_probeTrue_ensure _ false, ?_, hrec.2⟩
              intro y hy
              obtain ⟨b, rfl⟩ := action_not_ensure_is_probe y
                (fun calls ok hne => hrec.1 calls ok (hne ▸ Option.mem_def.mp hy))
              exact probeGuard_ensure_probe _ false b

/-- C7 (witness): on a concrete one-iteration trace whose probe fails, the
first recorded action is not an ensure cycle. -/
theorem waitLoop_ensure_only_after_probe_witness :
    (waitLoop ["m"] 100 none
      [CycleEnv.mk 5 (some "connection refused") (Except.ok [])
        (fun _ => HttpPullResponse.transportFail "")]).1.head? ≠
      some (Action.ensureCycle [] true) :=
  (waitLoop_ensure_only_after_probe ["m"] 100 none
    [CycleEnv.mk 5 (some "connection refused") (Except.ok [])
      (fun _ => HttpPullResponse.transportFail "")]).1 [] true

/-! ## Claim C8: satisfied required sets need no retrieval -/

/-- C8: when every required model is in the installed set reported at probe
time, one iteration of the engine reaches `ready` with an ensure cycle
that issues zero pull calls; and a second ensure cycle run against any
inventory containing both the first cycle's installed set and its pulled
models (the durable effect of a successful cycle) issues zero additional
pull calls. -/
theorem ensureAll_satisfied_zero_pulls (required installed installed2 : List String)
    (backend backend2 : String → HttpPullResponse) (calls : List String)
    (env : CycleEnv) (rest : List CycleEnv) (deadline : Nat) :
    (env.timeNow ≤ deadline → env.pingErr = none →
      env.inventory = Except.ok installed → (∀ m ∈ required, m ∈ installed) →
      waitLoop required deadline none (env :: rest) =
        ([Action.probe true, Action.ensureCycle [] true],
          some ReadyOutcome.ready)) ∧
    ((∀ m ∈ required, m ∈ installed) →
      ensureAll (Except.ok installed) backend required = ([], EnsureResult.ok)) ∧
    (ensureAll (Except.ok installed) backend required = (calls, EnsureResult.ok) →
      (∀ m ∈ installed, m ∈ installed2) → (∀ m ∈ calls, m ∈ installed2) →
      ensureAll (Except.ok installed2) backend2 required = ([], EnsureResult.ok)) := by
  have hmiss : ∀ (inst : List String), (∀ m ∈ required, m ∈ inst) →
      missingModels required inst = [] := by
    intro inst hsub
    simp only [missingModels, List.filter_eq_nil_iff]
    intro m hm
    simp [List.elem_iff, hsub m hm]
  refine ⟨?_, ?_, ?_⟩
  · intro hok hping hinv hsub
    have h2 : ensureAll env.inventory env.backend required = ([], EnsureResult.ok) := by
      simp [ensureAll, hinv, hmiss installed hsub, pullLoop]
    simp [waitLoop, Nat.not_lt.mpr hok, hping, h2]
  · intro hsub
    simp [ensureAll, hmiss installed hsub, pullLoop]
  · intro h1 hinst hcalls
    have hc : calls = missingModels required installed :=
      pullLoop_ok_calls backend _ _ (by simpa [ensureAll] using h1)
    have hsub2 : ∀ m ∈ required, m ∈ installed2 := by
      intro m hm
      by_cases hin : m ∈ installed
      · exact hinst m hin
      · refine hcalls m ?_
        rw [hc]
        simp [missingModels, List.mem_filter, List.elem_iff, hm, hin]
    simp [ensureAll, hmiss installed2 hsub2, pullLoop]

/-- C8 (witness): required `["a","b"]` with installed `["b","a"]` reaches
`ready` in one iteration with zero pulls; the same ensure cycle against the
same inventory issues zero pulls; and re-running after a successful cycle
(installed `["a"]`, pulled `["b"]`, second inventory `["a","b"]`) issues
zero additional pulls. -/
theorem ensureAll_satisfied_zero_pulls_witness :
    (waitLoop ["a", "b"] 50 none
      [CycleEnv.mk 1 none (Except.ok ["b", "a"])
        (fun _ => HttpPullResponse.transportFail "")] =
      ([Action.probe true, Action.ensureCycle [] true], some ReadyOutcome.ready)) ∧
    ensureAll (Except.ok ["a", "b"])
      (fun _ => HttpPullResponse.transportFail "") ["a", "b"] =
      ([], EnsureResult.ok) :=
  ⟨(ensureAll_satisfied_zero_pulls ["a", "b"] ["b", "a"] []
      (fun _ => HttpPullResponse.transportFail "")
      (fun _ => HttpPullResponse.transportFail "") []
      (CycleEnv.mk 1 none (Except.ok ["b", "a"])
        (fun _ => HttpPullResponse.transportFail "")) [] 50).1
      (by decide) rfl rfl (by decide),
   (ensureAll_satisfied_zero_pulls ["a", "b"] ["a", "b"] []
      (fun _ => HttpPullResponse.transportFail "")
      (fun _ => HttpPullResponse.transportFail "") []
      (CycleEnv.mk 1 none (Except.ok ["a", "b"])
        (fun _ => HttpPullResponse.transportFail "")) [] 50).2.1
      (by decide)⟩

/-! ## Claim C9: the one-shot probe -/

/-- C9: the one-shot probe exits either zero with no output or non-zero, and
it exits zero with no output exactly when every configuration-validation
step succeeds, the single inventory query succeeds, and every required
model is present in the reported inventory — so any validation failure,
any transport or decode failure of the inventory query, or any missing
required model produces a non-zero exit. -/
theorem probeMain_exit_spec (pd : String → Option Int) (env : String → String)
    (tags : Except String (List String)) :
    (probeMain pd env tags = (0, []) ∨ (probeMain pd env tags).1 = 1) ∧
    (probeMain pd env tags = (0, []) ↔
      ∃ required installed raw ts d base,
        requireEnv env "OLLAMA_BASE_URL" = Except.ok base ∧
        requireEnv env "REQUIRED_MODELS" = Except.ok raw ∧
        parseModels raw = Except.ok required ∧
        requireEnv env "REQUEST_TIMEOUT" = Except.ok ts ∧
        mustParseDuration pd ts "REQUEST_TIMEOUT" = Except.ok d ∧
        tags = Except.ok installed ∧
        ∀ need ∈ required, need ∈ installed) := by
  cases h1 : requireEnv env "OLLAMA_BASE_URL" with
  | error e1 => exact ⟨Or.inr (by simp [probeMain, h1]), by simp [probeMain, h1]⟩
  | ok base0 =>
  cases h2 : requireEnv env "REQUIRED_MODELS" with
  | error e2 => exact ⟨Or.inr (by simp [probeMain, h1, h2]), by simp [probeMain, h1, h2]⟩
  | ok raw0 =>
  cases h3 : parseModels raw0 with
  | error e3 =>
      exact ⟨Or.inr (by simp [probeMain, h1, h2, h3]), by simp [probeMain, h1, h2, h3]⟩
  | ok required0 =>
  cases h4 : requireEnv env "REQUEST_TIMEOUT" with
  | error e4 =>
      exact ⟨Or.inr (by simp [probeMain, h1, h2, h3, h4]),
        by simp [probeMain, h1, h2, h3, h4]⟩
  | ok ts0 =>
  cases h5 : mustParseDuration pd ts0 "REQUEST_TIMEOUT" with
  | error e5 =>
      exact ⟨Or.inr (by simp [probeMain, h1, h2, h3, h4, h5]),
        by simp [probeMain, h1, h2, h3, h4, h5]⟩
  | ok d0 =>
  cases h6 : tags with
  | error e6 =>
      exact ⟨Or.inr (by simp [probeMain, h1, h2, h3, h4, h5, h6]),
        by simp [probeMain, h1, h2, h3, h4, h5, h6]⟩
  | ok installed0 =>
  cases h7 : required0.find? (fun need => !(installed0.contains need)) with
  | some need =>
      have hmem : need ∈ required0 := List.mem_of_find?_eq_some h7
      have hnot : need ∉ installed0 := by
        have hp := List.find?_some h7
        simpa [List.elem_iff] using hp
      have heq : probeMain pd env (Except.ok installed0) =
          (1, ["missing model: " ++ need]) := by
        simp only [probeMain, h1, h2, h3, h4, h5, h7]
      refine ⟨Or.inr (by rw [heq]), ?_⟩
      rw [heq]
      constructor
      · intro h
        simp at h
      · rintro ⟨req', inst', raw', ts', d', base', hb, hraw, hreq, hts, hd, htags, hall⟩
        injection hraw with hraw
        subst hraw
        rw [h3] at hreq
        injection hreq with hreq
        subst hreq
        injection htags with htags
        subst htags
        exact absurd (hall need hmem) hnot
  | none =>
      have heq : probeMain pd env (Except.ok installed0) = (0, []) := by
        simp only [probeMain, h1, h2, h3, h4, h5, h7]
      refine ⟨Or.inl heq, ?_⟩
      rw [heq]
      constructor
      · intro _
        refine ⟨required0, installed0, raw0, ts0, d0, base0, rfl, rfl, h3, rfl, h5, rfl, ?_⟩
        intro need hneed
        have hp := List.find?_eq_none.mp h7 need hneed
        simpa [List.elem_iff] using hp
      · intro _
        rfl

/-- C9 (witness): a configuration requiring `"a"` and `"b"` against an
inventory containing both exits zero with no output; with REQUIRED_MODELS
unset it exits 1; with a failed inventory query it exits 1; with a model
missing from the inventory it exits 1. -/
theorem probeMain_exit_spec_witness :
    probeMain (fun _ => some 1)
      (fun k => if k = "REQUIRED_MODELS" then "a,b" else "x")
      (Except.ok ["a", "b", "c"]) = (0, []) ∧
    (probeMain (fun _ => some 1)
      (fun k => if k = "REQUIRED_MODELS" then "" else "x")
      (Except.ok ["a"])).1 = 1 ∧
    (probeMain (fun _ => some 1)
      (fun k => if k = "REQUIRED_MODELS" then "a,b" else "x")
      (Except.error "connection refused")).1 = 1 ∧
    (probeMain (fun _ => some 1)
      (fun k => if k = "REQUIRED_MODELS" then "a,b" else "x")
      (Except.ok ["a"])).1 = 1 := by
  refine ⟨?_, ?_, ?_, ?_⟩
  · exact (probeMain_exit_spec (fun _ => some 1)
      (fun k => if k = "REQUIRED_MODELS" then "a,b" else "x")
      (Except.ok ["a", "b", "c"])).2.mpr
      ⟨["a", "b"], ["a", "b", "c"], "a,b", "x", 1, "x",
        rfl, rfl, rfl, rfl, rfl, rfl, by decide⟩
  · cases (probeMain_exit_spec (fun _ => some 1)
      (fun k => if k = "REQUIRED_MODELS" then "" else "x") (Except.ok ["a"])).1 with
    | inl h =>
        exact absurd ((probeMain_exit_spec (fun _ => some 1)
          (fun k => if k = "REQUIRED_MODELS" then "" else "x")
          (Except.ok ["a"])).2.mp h)
          (by
            rintro ⟨r, i, raw, ts, d, b, hb, hraw, hrest⟩
            have hraw2 : Except.error (α := String)
                "required env REQUIRED_MODELS not set" = Except.ok raw := hraw
            exact Except.noConfusion hraw2)
    | inr h => exact h
  · cases (probeMain_exit_spec (fun _ => some 1)
      (fun k => if k = "REQUIRED_MODELS" then "a,b" else "x")
      (Except.error "connection refused")).1 with
    | inl h =>
        exact absurd ((probeMain_exit_spec (fun _ => some 1)
          (fun k => if k = "REQUIRED_MODELS" then "a,b" else "x")
          (Except.error "connection refused")).2.mp h)
          (by
            rintro ⟨r, i, raw, ts, d, b, hb, hraw, hreq, hts, hd, htags, hall⟩
            exact Except.noConfusion htags)
    | inr h => exact h
  · cases (probeMain_exit_spec (fun _ => some 1)
      (fun k => if k = "REQUIRED_MODELS" then "a,b" else "x")
      (Except.ok ["a"])).1 with
    | inl h =>
        exact absurd ((probeMain_exit_spec (fun _ => some 1)
          (fun k => if k = "REQUIRED_MODELS" then "a,b" else "x")
          (Except.ok ["a"])).2.mp h)
          (by
            rintro ⟨r, i, raw, ts, d, b, hb, hraw, hreq, hts, hd, htags, hall⟩
            injection htags with htags
            subst htags
            have hraw2 : Except.ok (ε := String) "a,b" = Except.ok raw := hraw
            injection hraw2 with hraw3
            subst hraw3
            have hreq2 : Except.ok (ε := String) ["a", "b"] = Except.ok r := hreq
            injection hreq2 with hreq3
            subst hreq3
            have hbm := hall "b" (by decide)
            simp at hbm)
    | inr h => exact h

/-! ## Claim C10: the raw pull request body versus JSON encoding -/

lemma jsonEscapeChar_safe (c : Char) (h1 : c ≠ '"') (h2 : c ≠ '\\')
    (h3 : 32 ≤ c.toNat) : jsonEscapeChar c = [c] := by
  have hn : c ≠ '\n' := by
    intro h
    subst h
    exact absurd h3 (by decide)
  have hr : c ≠ '\r' := by
    intro h
    subst h
    exact absurd h3 (by decide)
  have ht : c ≠ '\t' := by
    intro h
    subst h
    exact absurd h3 (by decide)
  simp [jsonEscapeChar, h1, h2, hn, hr, ht, Nat.not_lt.mpr h3]

lemma jsonEscapeChars_safe (l : List Char)
    (h : ∀ c ∈ l, c ≠ '"' ∧ c ≠ '\\' ∧ 32 ≤ c.toNat) :
    jsonEscapeChars l = l := by
  induction l with
  | nil => rfl
  | cons c cs ih =>
      obtain ⟨h1, h2, h3⟩ := h c (List.mem_cons_self c cs)
      simp [jsonEscapeChars, jsonEscapeChar_safe c h1 h2 h3,
        ih (fun x hx => h x (List.mem_cons_of_mem c hx))]

lemma jsonEscapeChar_length_pos (c : Char) : 1 ≤ (jsonEscapeChar c).length := by
  unfold jsonEscapeChar
  split_ifs <;> simp [hex4]

lemma jsonEscapeChar_escaped_length (c : Char)
    (h : c = '"' ∨ c = '\\' ∨ c.toNat < 32) : 2 ≤ (jsonEscapeChar c).length := by
  unfold jsonEscapeChar
  split_ifs with hq hb hn hr ht hc
  · simp
  · simp
  · simp
  · simp
  · simp
  · simp [hex4]
  · rcases h with h | h | h
    · exact absurd h hq
    · exact absurd h hb
    · exact absurd h hc

lemma jsonEscapeChars_length_ge (l : List Char) :
    l.length ≤ (jsonEscapeChars l).length := by
  induction l with
  | nil => simp [jsonEscapeChars]
  | cons c cs ih =>
      simp only [jsonEscapeChars, List.length_append, List.length_cons]
      have hpos := jsonEscapeChar_length_pos c
      omega

lemma jsonEscapeChars_length_gt (l : List Char)
    (h : ∃ c ∈ l, c = '"' ∨ c = '\\' ∨ c.toNat < 32) :
    l.length < (jsonEscapeChars l).length := by
  induction l with
  | nil =>
      obtain ⟨c, hc, -⟩ := h
      cases hc
  | cons c cs ih =>
      obtain ⟨x, hx, hux⟩ := h
      simp only [jsonEscapeChars, List.length_append, List.length_cons]
      rcases List.mem_cons.mp hx with rfl | hx2
      · have h2 := jsonEscapeChar_escaped_length x hux
        have h3 := jsonEscapeChars_length_ge cs
        omega
      · have h2 := jsonEscapeChar_length_pos c
        have h3 := ih ⟨x, hx2, hux⟩
        omega

/-- C10 (amended): the raw-concatenation request body of `pullModel` equals
the JSON encoding of the object with field `name` bound to the model
exactly for identifiers free of double quotes, backslashes, and control
characters below U+0020; whenever the identifier contains any such
character, the equality fails. -/
theorem rawPullBody_json_encoding (model : String) :
    ((∀ c ∈ model.data, c ≠ '"' ∧ c ≠ '\\' ∧ 32 ≤ c.toNat) →
      rawPullBody model = jsonPullBody model) ∧
    ((∃ c ∈ model.data, c = '"' ∨ c = '\\' ∨ c.toNat < 32) →
      rawPullBody model ≠ jsonPullBody model) := by
  constructor
  · intro h
    have hesc := jsonEscapeChars_safe model.data h
    apply String.ext
    simp only [rawPullBody, jsonPullBody, jsonEncodeString, hesc,
      String.data_append]
    simp [List.append_assoc]
  · intro h heq
    have hlen := congrArg (fun s => s.data.length) heq
    simp only [rawPullBody, jsonPullBody, jsonEncodeString, String.data_append,
      List.length_append] at hlen
    have hgt := jsonEscapeChars_length_gt model.data h
    have l1 : ("\x7b\"name\":\"" : String).data.length = 9 := by decide
    have l2 : ("\"\x7d" : String).data.length = 2 := by decide
    have l3 : ("\x7b\"name\":" : String).data.length = 8 := by decide
    have l4 : ("\"" : String).data.length = 1 := by decide
    have l5 : ("\x7d" : String).data.length = 1 := by decide
    have l6 : (String.mk (jsonEscapeChars model.data)).data.length =
        (jsonEscapeChars model.data).length := rfl
    rw [l1, l2, l3, l4, l5, l6] at hlen
    omega

/-- C10 (counterexample): the claim as stated is false — the identifier
consisting of a single newline contains no double quote and no backslash,
yet the raw body differs from the JSON encoding (the newline must be
escaped in any valid JSON text). -/
theorem rawPullBody_newline_counterexample :
    (∀ c ∈ ("\n" : String).data, c ≠ '"' ∧ c ≠ '\\') ∧
    rawPullBody "\n" ≠ jsonPullBody "\n" := by
  constructor
  · decide
  · decide

/-- C10 (witness): a typical model identifier gives body equality, and an
identifier containing a double quote gives inequality. -/
theorem rawPullBody_json_encoding_witness :
    rawPullBody "llama3:8b" = jsonPullBody "llama3:8b" ∧
    rawPullBody "a\"b" ≠ jsonPullBody "a\"b" :=
  ⟨(rawPullBody_json_encoding "llama3:8b").1 (by decide),
   (rawPullBody_json_encoding "a\"b").2 ⟨'"', by decide, Or.inl rfl⟩⟩

end ModelManager
